import Mathlib

/-!
Verification of the marv-robotics collection index engine
(`src/code/marv/marv/collection.py`) against its natural-language
specification.  Each definition is a shallow embedding of a piece of
`Collection` from the source; theorems settle the frozen claims.
-/

namespace Marv

/-! ## Filter compilation (`Collection.filtered_listing`, collection.py 312-461)

Values flowing into a compiled filter: integer filter values are clamped with
`min([value, sys.maxsize])` (line 331-332).  `sys.maxsize` on CPython/64-bit
is `2^63 - 1`. -/

def maxsize : Int := 2 ^ 63 - 1

def clampInt (v : Int) : Int := min v maxsize

/-- 24 hours in milliseconds; `24 * 3600 * 1000` from lines 387/392/396. -/
def DAY_MS : Int := 24 * 3600 * 1000

/-- Generic scalar comparison chain, lines 399-415: the semantics of the
compiled `col <op> value` condition evaluated at a row whose column holds
`field`.  Operators outside the chain produce no condition here (the raise
case is modelled by `filterOutcome`). -/
def genericCompare (op : String) (value field : Int) : Bool :=
  if op = "lt" then decide (field < value)
  else if op = "le" then decide (field ≤ value)
  else if op = "eq" then decide (field = value)
  else if op = "ne" then decide (field ≠ value)
  else if op = "ge" then decide (field ≥ value)
  else if op = "gt" then decide (field > value)
  else false

/-- Datetime-typed scalar filter, lines 384-396: `eq` compiles to SQL
`col BETWEEN value AND value + 24*3600*1000` (inclusive both ends), `ne` to
its negation; `le`/`gt` first widen the value by the same 24h and then fall
through to the generic comparison chain. -/
def datetimeFilter (op : String) (value field : Int) : Bool :=
  if op = "eq" then decide (value ≤ field ∧ field ≤ value + DAY_MS)
  else if op = "ne" then ! decide (value ≤ field ∧ field ≤ value + DAY_MS)
  else
    let value := if op = "le" ∨ op = "gt" then value + DAY_MS else value
    genericCompare op value field

/-- A scalar filter as compiled by the loop body: the raw integer value is
clamped (lines 331-332), then dispatched on the value type (datetime special
case, lines 384-396) or the generic comparison chain (lines 398-415). -/
def scalarFilter (valType op : String) (rawValue field : Int) : Bool :=
  let value := clampInt rawValue
  if valType = "datetime" then datetimeFilter op value field
  else genericCompare op value field

/-! ## Tags filters (lines 360-382)

A dataset's tags are interned per collection (`Tag` rows unique by value,
`dataset_tag` rows unique pairs), so a dataset's tag set is a `Finset`.
The requested value is the list sent by the caller. -/

/-- `tags` filter, operator `any`, lines 361-365: the dataset matches iff
some of its tag rows has its value among the requested values. -/
def tagsAnyMatch (tags : Finset String) (value : List String) : Prop :=
  ∃ t ∈ tags, t ∈ value

instance (tags : Finset String) (value : List String) :
    Decidable (tagsAnyMatch tags value) := by
  unfold tagsAnyMatch; infer_instance

/-- `tags` filter, operator `all`, lines 367-377: tag rows of the dataset are
restricted to the requested values (`reduce(|, (Tag.value == x for x in
value))`), grouped per dataset, and the dataset matches iff the group count
equals `len(value)`. -/
def tagsAllMatch (tags : Finset String) (value : List String) : Prop :=
  (tags.filter (fun t => t ∈ value)).card = value.length

instance (tags : Finset String) (value : List String) :
    Decidable (tagsAllMatch tags value) := by
  unfold tagsAllMatch; infer_instance

/-! ## Status filters (lines 342-358)

`STATUS.keys()` is the ordered list of named status flags; each requested
flag is mapped to the bitmask `2**status_ids.index(x)` (line 344). -/

def statusBitmasks (statusIds : List String) (value : List String) : List Nat :=
  value.map (fun x => 2 ^ statusIds.indexOf x)

/-- The SQL expression built for operator `any`, lines 345-349:
`reduce(lambda x, y: x | y, (Dataset.status.op('&')(x) for x in bitmasks))`,
i.e. `(status & m1) | (status & m2) | ...` (empty input raises in Python;
modelled as `0`, and theorems assume a nonempty request). -/
def statusAnyExpr (status : Nat) : List Nat → Nat
  | [] => 0
  | m :: ms => ms.foldl (fun acc x => acc ||| (status &&& x)) (status &&& m)

/-- `status` filter, operator `any`: the disjunction expression is used as a
WHERE condition, i.e. the dataset matches iff it is nonzero. -/
def statusAnyMatch (statusIds : List String) (status : Nat) (value : List String) : Bool :=
  decide (statusAnyExpr status (statusBitmasks statusIds value) ≠ 0)

/-- `status` filter, operator `all`, lines 351-353: `bitmask = sum(bitmasks)`
and the dataset matches iff `status & bitmask == bitmask`. -/
def statusAllMatch (statusIds : List String) (status : Nat) (value : List String) : Bool :=
  let bitmask := (statusBitmasks statusIds value).sum
  decide (status &&& bitmask = bitmask)

/-! ## Operator dispatch outcome (raise vs accept)

Control-flow skeleton of the per-filter loop body, lines 330-455: which
`(name, operator, value_type)` combinations compile a condition and which
raise `UnknownOperator`.  The `comments` branch (lines 334-340) never
consults the operator; `status` and `tags` raise for operators other than
`any`/`all` (lines 356, 380); everything else raises exactly when the
operator is outside the generic chain (line 455). -/

inductive Outcome where
  | ok
  | unknownOperator
deriving DecidableEq

def genericOps : List String :=
  ["lt", "le", "eq", "ne", "ge", "gt", "substring", "startswith",
   "any", "all", "substring_any", "words"]

def filterOutcome (name op valType : String) : Outcome :=
  if name = "comments" then .ok
  else if name = "status" then
    if op = "any" ∨ op = "all" then .ok else .unknownOperator
  else if name = "tags" then
    if op = "any" ∨ op = "all" then .ok else .unknownOperator
  else if valType = "datetime" ∧ (op = "eq" ∨ op = "ne") then .ok
  else if op ∈ genericOps then .ok else .unknownOperator

/-! ## Scanner (`Collection.scan`, collection.py 463-545)

### Diffing known files (lines 472-512)

For every previously indexed, non-discarded file under the scan path the
scanner re-stats the path.  Stat results are modelled as `Option Int`
(mtime in milliseconds, `none` when the path no longer stats).  Change
records mirror the `(file, missing)` / `(file, mtime)` pairs appended to
`changes[file.dataset_id]`. -/

structure KnownFile where
  path : String
  missing : Bool
  mtime : Int
deriving DecidableEq, Repr

structure DatasetRow where
  missing : Bool
  time_updated : Int
deriving DecidableEq, Repr

inductive FileChange where
  | missingFlag (b : Bool)
  | mtime (m : Int)
deriving DecidableEq, Repr

/-- Lines 483-494: the per-file diff.  `missing := not stats`; a change is
recorded when `missing ^ bool(file.missing)`; an mtime change is recorded
when the file stats, its mtime is truthy and newer than the stored one. -/
def diffKnownFile (statMs : Option Int) (f : KnownFile) : List FileChange :=
  let missing := statMs.isNone
  (if missing ≠ f.missing then [FileChange.missingFlag missing] else []) ++
    (match statMs with
     | some m => if m ≠ 0 ∧ m > f.mtime then [FileChange.mtime m] else []
     | none => [])

/-- Lines 500-507: applying one buffered change to the file and its owning
dataset.  A `bool` change sets both the file's and the dataset's `missing`
flag; an mtime change updates the file's mtime and flags the
outdated-recompute.  The third component tracks `check_outdated`, which is
re-initialised on every iteration of the loop. -/
def applyFileChange (fd : KnownFile × DatasetRow × Bool) (c : FileChange) :
    KnownFile × DatasetRow × Bool :=
  match c with
  | .missingFlag b => ({ fd.1 with missing := b }, { fd.2.1 with missing := b }, false)
  | .mtime m => ({ fd.1 with mtime := m }, fd.2.1, true)

/-- Lines 483-512 for a single-file dataset: compute the diff; when not a
dry run and there are changes, apply them and set the dataset's
`time_updated` to the current time (line 510). -/
def scanKnownFile (dryRun : Bool) (statMs : Option Int) (now : Int)
    (f : KnownFile) (d : DatasetRow) : KnownFile × DatasetRow :=
  let changes := diffKnownFile statMs f
  if dryRun ∨ changes.isEmpty then (f, d)
  else
    let out := changes.foldl applyFileChange (f, d, false)
    (out.1, { out.2.1 with time_updated := now })

/-! ### Batching newly discovered datasets (lines 515-543)

`batch.append(dataset); if len(batch) > 50: self._add_batch(...)` and a
final `if not dry_run and batch: self._add_batch(...)`.  `_add_batch`
clears the buffer (`batch[:] = []`, line 646).  Discovered datasets are
abstracted by their identity (`Nat`). -/

def batchStep (acc : List (List Nat) × List Nat) (d : Nat) :
    List (List Nat) × List Nat :=
  let batch := acc.2 ++ [d]
  if batch.length > 50 then (acc.1 ++ [batch], []) else (acc.1, batch)

/-- The batches written by one walk over `discovered`, in order: the
mid-walk flushes followed by the final flush of a nonempty leftover. -/
def allBatches (discovered : List Nat) : List (List Nat) :=
  let out := discovered.foldl batchStep ([], [])
  if out.2.isEmpty then out.1 else out.1 ++ [out.2]

/-! ### The whole scan as a state transformer (lines 463-545)

Persistent state: the known (file, dataset) rows and the batches of new
datasets written so far.  The filesystem is an abstract stat function from
path to optional mtime, plus the list of datasets the walk discovers. -/

structure ScanState where
  known : List (KnownFile × DatasetRow)
  written : List (List Nat)
deriving DecidableEq, Repr

def scanModel (dryRun : Bool) (stat : String → Option Int) (now : Int)
    (discovered : List Nat) (st : ScanState) : ScanState :=
  { known := st.known.map (fun fd => scanKnownFile dryRun (stat fd.1.path) now fd.1 fd.2),
    written := if dryRun then st.written else st.written ++ allBatches discovered }

/-! ### The new-file walk (lines 514-533)

The walked tree is a rose tree of directories: each node has a name, the
plain files it contains and its subdirectories.  `os.walk` is modelled
recursively; the in-place mutation of `subdirs` prunes / orders the
traversal exactly as the recursive definition below does. -/

inductive FSTree : Type where
  | mk (name : String) (files : List String) (subdirs : List FSTree)

def FSTree.name : FSTree → String
  | .mk n _ _ => n

def FSTree.files : FSTree → List String
  | .mk _ f _ => f

def FSTree.subdirs : FSTree → List FSTree
  | .mk _ _ s => s

instance : DecidableRel (fun a b : FSTree => a.name ≤ b.name) :=
  fun a b => inferInstanceAs (Decidable (a.name ≤ b.name))

/-- Line 518: `os.path.exists(os.path.join(directory, '.marvignore'))` — the
sentinel may be a file or a subdirectory of that name. -/
def hasMarvignore (files : List String) (subdirs : List FSTree) : Bool :=
  files.contains ".marvignore" || subdirs.any (fun s => s.name == ".marvignore")

/-- Line 523: `subdirs[:] = sorted([x for x in subdirs if x[0] != '.'])` —
the non-hidden subdirectories in sorted (stable, by name) order. -/
def visibleSorted (subdirs : List FSTree) : List FSTree :=
  (subdirs.filter (fun s => !s.name.startsWith ".")).insertionSort
    (fun a b => a.name ≤ b.name)

/-- Lines 526-528: hidden files are dropped, the remaining set minus the
directory's already-known filenames is sorted. -/
def shownNames (known : String → List String) (dir : String)
    (files : List String) : List String :=
  (((files.filter (fun f => !f.startsWith ".")).filter
      (fun f => !(known dir).contains f)).dedup).insertionSort (fun a b => a ≤ b)

/-- The walk of lines 516-533: for each visited directory it emits the pair
`(directory, filenames)` handed to the scanner callback; a directory with a
`.marvignore` sentinel is pruned together with its whole subtree. -/
def walkTree : (String → List String) → String → FSTree →
    List (String × List String)
  | known, path, .mk _ files subdirs =>
    if hasMarvignore files subdirs then []
    else
      (path, shownNames known path files) ::
        (visibleSorted subdirs).attach.flatMap
          (fun s => walkTree known (path ++ "/" ++ s.1.name) s.1)
termination_by _ _ t => sizeOf t
decreasing_by
  simp_wf
  have hmem : s.1 ∈ visibleSorted subdirs := s.2
  have h1 : s.1 ∈ subdirs.filter (fun s => !s.name.startsWith ".") := by
    simpa [visibleSorted, List.mem_insertionSort] using hmem
  have h2 : s.1 ∈ subdirs := (List.mem_filter.mp h1).1
  have h3 : sizeOf s.1 < sizeOf subdirs := List.sizeOf_lt_of_mem h2
  omega

/-- Replaces a hidden subdirectory by an empty directory of the same name:
used to state that the contents of hidden subdirectories are never
consulted by the walk. -/
def gutHidden (t : FSTree) : FSTree :=
  if t.name.startsWith "." then .mk t.name [] [] else t

/-! ## Filter-spec loading (`Collection.filter_specs`, collection.py 213-220) -/

structure FilterSpecRec where
  name : String
  title : String
  ops : List String
  value_type : String
  function : String
deriving DecidableEq, Repr

inductive LoadError where
  | assertionError
  | configError
deriving DecidableEq, Repr

/-- The regex check `re.match('^[a-z0-9_]+$', x)` of line 217: one or more
characters from `[a-z0-9_]`; Python's `$` also matches just before one
trailing newline. -/
def nameOk (s : String) : Bool :=
  let cs := s.toList
  let core := if cs.getLast? = some (Char.ofNat 10) then cs.dropLast else cs
  !core.isEmpty && core.all
    (fun c => (decide ('a' ≤ c) && decide (c ≤ 'z'))
      || (decide ('0' ≤ c) && decide (c ≤ '9')) || c == '_')

/-- One keyed insertion into an association list: an existing key's value is
silently overridden in place, a new key is appended. -/
def odStep (acc : List (String × FilterSpecRec)) (s : FilterSpecRec) :
    List (String × FilterSpecRec) :=
  if acc.any (fun p => p.1 == s.name)
  then acc.map (fun p => if p.1 == s.name then (p.1, s) else p)
  else acc ++ [(s.name, s)]

/-- `OrderedDict((x.name, x) for x in specs)` (line 220): keyed insertion in
first-occurrence order, later values silently overriding earlier ones. -/
def orderedDict (specs : List FilterSpecRec) : List (String × FilterSpecRec) :=
  specs.foldl odStep []

/-- `Collection.filter_specs` (lines 213-220) over the already-parsed spec
lines: three `assert` statements (name pattern, mandatory `setid`, mandatory
`tags`), then the `OrderedDict` build.  A failed `assert` raises
`AssertionError`. -/
def filter_specs (specs : List FilterSpecRec) :
    Except LoadError (List (String × FilterSpecRec)) :=
  let names := specs.map (fun s => s.name)
  if !names.all nameOk then .error .assertionError
  else if !names.contains "setid" then .error .assertionError
  else if !names.contains "tags" then .error .assertionError
  else .ok (orderedDict specs)

/-! ## Theorems -/

/-- Claim C1, counterexample: the compiled `eq` window is NOT the half-open
window `[V, V + 86400000)`.  At `V = 0` a dataset whose field value is
exactly `86400000` matches the compiled query (SQL `BETWEEN` is inclusive at
both ends) although it lies outside the half-open window. -/
theorem C1_counterexample :
    datetimeFilter "eq" 0 86400000 = true ∧
      ¬((0 : Int) ≤ 86400000 ∧ (86400000 : Int) < 0 + 86400000) := by
  constructor
  · decide
  · decide

/-- Claim C1 (amended): for a datetime-typed scalar filter with value `V`
milliseconds, operator `eq` matches exactly the field values in the CLOSED
24h window `[V, V + 86400000]` (both ends inclusive); `ne` matches exactly
the complement of that closed window; `le` and `gt` first widen the bound by
the same 24h (to `V + 86400000`) before the generic comparator applies. -/
theorem C1_datetime_window (V f : Int) :
    (datetimeFilter "eq" V f = true ↔ V ≤ f ∧ f ≤ V + 86400000) ∧
    (datetimeFilter "ne" V f = true ↔ ¬(V ≤ f ∧ f ≤ V + 86400000)) ∧
    (datetimeFilter "le" V f = true ↔ f ≤ V + 86400000) ∧
    (datetimeFilter "gt" V f = true ↔ V + 86400000 < f) := by
  refine ⟨?_, ?_, ?_, ?_⟩ <;>
    simp [datetimeFilter, genericCompare, DAY_MS] <;> omega

/-- Claim C10: every integer filter value is replaced by
`min(value, sys.maxsize)` before the filter is compiled, so any integer
value greater than `sys.maxsize` behaves, for every operator and value
type, exactly as if `sys.maxsize` had been supplied. -/
theorem C10_maxsize_clamp (valType op : String) (rawValue field : Int)
    (h : maxsize < rawValue) :
    scalarFilter valType op rawValue field = scalarFilter valType op maxsize field := by
  unfold scalarFilter clampInt
  rw [min_eq_right (le_of_lt h), min_self]

/-- Claim C10, witness: a value one above `sys.maxsize` compiles to the same
filter as `sys.maxsize` itself. -/
theorem C10_maxsize_clamp_witness :
    maxsize < maxsize + 1 ∧
      scalarFilter "int" "lt" (maxsize + 1) 0 = scalarFilter "int" "lt" maxsize 0 :=
  ⟨by simp, C10_maxsize_clamp "int" "lt" (maxsize + 1) 0 (by simp)⟩

/-- Claim C9: a scan with `dry_run=True` modifies no persistent state —
missing/mtime diffs are computed but never applied to any file or dataset
row, and no batch of new datasets is ever written. -/
theorem C9_dry_run_frame (stat : String → Option Int) (now : Int)
    (discovered : List Nat) (st : ScanState) :
    scanModel true stat now discovered st = st := by
  have h : ∀ fd : KnownFile × DatasetRow,
      scanKnownFile true (stat fd.1.path) now fd.1 fd.2 = fd := by
    intro fd; simp [scanKnownFile]
  simp [scanModel, h]

/-- Claim C4, counterexample: the `comments` branch never inspects the
operator, so the unrecognized combination `('comments', 'lt')` does NOT
raise `UnknownOperator` — it silently compiles the comment-substring
condition. -/
theorem C4_counterexample :
    filterOutcome "comments" "lt" "string" = Outcome.ok := by
  decide

/-- Claim C4 (amended): `UnknownOperator` is raised exactly for `status` and
`tags` filters with an operator other than `any`/`all`, and for any other
non-`comments` filter whose operator is outside the generic operator chain
`lt le eq ne ge gt substring startswith any all substring_any words`; a
`comments` filter never raises — its operator is ignored and comment
substring matching always applies. -/
theorem C4_unknown_operator (name op valType : String) :
    filterOutcome name op valType = Outcome.unknownOperator ↔
      ((name = "status" ∨ name = "tags") ∧ ¬(op = "any" ∨ op = "all")) ∨
      (name ≠ "comments" ∧ name ≠ "status" ∧ name ≠ "tags" ∧ op ∉ genericOps) := by
  have heq : "eq" ∈ genericOps := by decide
  have hne : "ne" ∈ genericOps := by decide
  unfold filterOutcome
  split_ifs with h1 h2 h3 h4 h5 h6 h7 <;> simp_all [genericOps] <;> tauto

/-- Claim C6: for a known, non-discarded file whose path stops statting, a
(non-dry-run) scan flips the file's `missing` flag from false to true, also
sets the owning dataset's `missing` flag and stamps `time_updated` with the
scan time; a later scan in which the path stats again flips both flags back
to false and stamps the new time, so `time_updated` advances monotonically
whenever the wall clock does. -/
theorem C6_missing_transitions (f : KnownFile) (d : DatasetRow) (t1 t2 m : Int)
    (hmiss : f.missing = false) (hmono : t1 ≤ t2) :
    ((scanKnownFile false none t1 f d).1.missing = true ∧
     (scanKnownFile false none t1 f d).2.missing = true ∧
     (scanKnownFile false none t1 f d).2.time_updated = t1) ∧
    ((scanKnownFile false (some m) t2 (scanKnownFile false none t1 f d).1
        (scanKnownFile false none t1 f d).2).1.missing = false ∧
     (scanKnownFile false (some m) t2 (scanKnownFile false none t1 f d).1
        (scanKnownFile false none t1 f d).2).2.missing = false ∧
     (scanKnownFile false (some m) t2 (scanKnownFile false none t1 f d).1
        (scanKnownFile false none t1 f d).2).2.time_updated = t2) ∧
    (scanKnownFile false none t1 f d).2.time_updated ≤
      (scanKnownFile false (some m) t2 (scanKnownFile false none t1 f d).1
        (scanKnownFile false none t1 f d).2).2.time_updated := by
  have h1 : scanKnownFile false none t1 f d =
      ({ f with missing := true }, { missing := true, time_updated := t1 }) := by
    simp [scanKnownFile, diffKnownFile, hmiss, applyFileChange]
  rw [h1]
  by_cases hm : m ≠ 0 ∧ m > f.mtime <;>
    simp [scanKnownFile, diffKnownFile, applyFileChange, hm, hmono]

/-- Claim C6, witness: concrete lost-then-recovered file. -/
theorem C6_missing_transitions_witness :
    ((scanKnownFile false none 5 ⟨"p", false, 100⟩ ⟨false, 0⟩).1.missing = true ∧
     (scanKnownFile false none 5 ⟨"p", false, 100⟩ ⟨false, 0⟩).2.missing = true ∧
     (scanKnownFile false none 5 ⟨"p", false, 100⟩ ⟨false, 0⟩).2.time_updated = 5) ∧
    ((scanKnownFile false (some 200) 7 (scanKnownFile false none 5 ⟨"p", false, 100⟩ ⟨false, 0⟩).1
        (scanKnownFile false none 5 ⟨"p", false, 100⟩ ⟨false, 0⟩).2).1.missing = false ∧
     (scanKnownFile false (some 200) 7 (scanKnownFile false none 5 ⟨"p", false, 100⟩ ⟨false, 0⟩).1
        (scanKnownFile false none 5 ⟨"p", false, 100⟩ ⟨false, 0⟩).2).2.missing = false ∧
     (scanKnownFile false (some 200) 7 (scanKnownFile false none 5 ⟨"p", false, 100⟩ ⟨false, 0⟩).1
        (scanKnownFile false none 5 ⟨"p", false, 100⟩ ⟨false, 0⟩).2).2.time_updated = 7) ∧
    (scanKnownFile false none 5 ⟨"p", false, 100⟩ ⟨false, 0⟩).2.time_updated ≤
      (scanKnownFile false (some 200) 7 (scanKnownFile false none 5 ⟨"p", false, 100⟩ ⟨false, 0⟩).1
        (scanKnownFile false none 5 ⟨"p", false, 100⟩ ⟨false, 0⟩).2).2.time_updated :=
  C6_missing_transitions ⟨"p", false, 100⟩ ⟨false, 0⟩ 5 7 200 (by decide) (by decide)

/-- Claim C2: a `tags` filter with operator `any` matches a dataset iff at
least one of the requested tags is among the dataset's tags; with operator
`all` (and a duplicate-free, nonempty request, as sent by the API) it
matches iff every requested tag is among the dataset's tags — so a dataset
tagged with a strict superset of the request matches and one missing any
requested tag does not. -/
theorem C2_tags_filter (tags : Finset String) (value : List String) :
    (tagsAnyMatch tags value ↔ ∃ t ∈ value, t ∈ tags) ∧
    (value ≠ [] → value.Nodup →
      (tagsAllMatch tags value ↔ ∀ t ∈ value, t ∈ tags)) := by
  constructor
  · exact ⟨fun ⟨t, h1, h2⟩ => ⟨t, h2, h1⟩, fun ⟨t, h1, h2⟩ => ⟨t, h2, h1⟩⟩
  · intro _ hnd
    unfold tagsAllMatch
    have h1 : tags.filter (fun t => t ∈ value) = tags ∩ value.toFinset := by
      ext t; simp [List.mem_toFinset]
    rw [h1, ← List.toFinset_card_of_nodup hnd]
    constructor
    · intro hcard t ht
      have hsub : tags ∩ value.toFinset ⊆ value.toFinset := Finset.inter_subset_right
      have heq := Finset.eq_of_subset_of_card_le hsub (le_of_eq hcard.symm)
      exact (Finset.inter_eq_right.mp heq) (List.mem_toFinset.mpr ht)
    · intro hall
      rw [Finset.inter_eq_right.mpr (fun t ht => hall t (List.mem_toFinset.mp ht))]

/-- Claim C2, witness: with request `[a, b]`, a dataset tagged `{a, b, c}`
matches the `all` filter. -/
theorem C2_tags_filter_witness :
    tagsAllMatch ({"a", "b", "c"} : Finset String) ["a", "b"] :=
  ((C2_tags_filter {"a", "b", "c"} ["a", "b"]).2 (by decide) (by decide)).mpr
    (by decide)

/-- Bitwise AND distributes over OR, bit by bit. -/
theorem land_lor_distrib (s a b : Nat) :
    (s &&& a) ||| (s &&& b) = s &&& (a ||| b) := by
  apply Nat.eq_of_testBit_eq
  intro i
  simp [Nat.testBit_land, Nat.testBit_lor, Bool.and_or_distrib_left]

/-- The chained disjunction `(s & m1) | (s & m2) | ...` equals
`s & (m1 | m2 | ...)`. -/
theorem statusAnyExpr_foldl (status : Nat) (ms : List Nat) (acc : Nat) :
    ms.foldl (fun a x => a ||| (status &&& x)) (status &&& acc) =
      status &&& ms.foldl (fun a b => a ||| b) acc := by
  induction ms generalizing acc with
  | nil => simp
  | cons m ms ih =>
    simp only [List.foldl_cons]
    rw [land_lor_distrib, ih]

/-- Claim C3: for a `status` filter over named flags (each mapped to the
bitmask `2^index` of its position in `STATUS`), operator `any` matches iff
the bitwise AND of the dataset's status bitmask with the OR of the
requested per-flag bitmasks is nonzero, and operator `all` matches iff the
AND of the status bitmask with the sum of the requested bitmasks equals
that sum; hence a dataset with only `F1` set matches `any` over
`{F1, F2}` but not `all`. -/
theorem C3_status_filter :
    (∀ (statusIds : List String) (status : Nat) (value : List String),
       value ≠ [] →
       (statusAnyMatch statusIds status value = true ↔
         status &&& ((statusBitmasks statusIds value).foldl (fun a b => a ||| b) 0) ≠ 0)) ∧
    (∀ (statusIds : List String) (status : Nat) (value : List String),
       statusAllMatch statusIds status value = true ↔
         status &&& (statusBitmasks statusIds value).sum = (statusBitmasks statusIds value).sum) ∧
    (statusAnyMatch ["F1", "F2"] 1 ["F1", "F2"] = true ∧
     statusAllMatch ["F1", "F2"] 1 ["F1", "F2"] = false) := by
  refine ⟨?_, ?_, by decide, by decide⟩
  · intro statusIds status value hne
    cases value with
    | nil => exact absurd rfl hne
    | cons v vs =>
      simp only [statusAnyMatch, statusBitmasks, List.map_cons, statusAnyExpr,
        List.foldl_cons, Nat.zero_or, statusAnyExpr_foldl, decide_eq_true_eq]
  · intro statusIds status value
    simp [statusAllMatch]

/-- Claim C3, witness: a dataset with (only) the first flag set matches an
`any` filter over that flag. -/
theorem C3_status_filter_witness :
    statusAnyMatch ["ok"] 5 ["ok"] = true :=
  (C3_status_filter.1 ["ok"] 5 ["ok"] (by decide)).mpr (by decide)

set_option maxRecDepth 8000 in
/-- Claim C5, counterexample: a walk discovering 51 datasets flushes them
as a single batch of 51 datasets — more than the 50 the claim allows — and
no flush happens at 50. -/
theorem C5_counterexample :
    allBatches (List.replicate 51 0) = [List.replicate 51 0] ∧
      (List.replicate 51 0).length = 51 := by
  constructor
  · decide
  · decide

/-- Invariant of the batching fold: flushed batches are nonempty with at
most 51 entries, the live buffer stays at most 50, and nothing is lost. -/
theorem batch_fold_invariant (ds : List Nat) :
    ∀ (done : List (List Nat)) (batch : List Nat),
      batch.length ≤ 50 →
      (∀ b ∈ done, 0 < b.length ∧ b.length ≤ 51) →
      (∀ b ∈ (ds.foldl batchStep (done, batch)).1, 0 < b.length ∧ b.length ≤ 51) ∧
      (ds.foldl batchStep (done, batch)).2.length ≤ 50 ∧
      (ds.foldl batchStep (done, batch)).1.join ++ (ds.foldl batchStep (done, batch)).2 =
        done.join ++ batch ++ ds := by
  induction ds with
  | nil =>
    intro done batch hb hdone
    simpa using ⟨hdone, hb⟩
  | cons d ds ih =>
    intro done batch hb hdone
    simp only [List.foldl_cons]
    by_cases h : (batch ++ [d]).length > 50
    · have h' : batch.length + 1 > 50 := by
        simpa using h
      have hstep : batchStep (done, batch) d = (done ++ [batch ++ [d]], []) := by
        simp [batchStep, h']
      rw [hstep]
      have hdone' : ∀ b ∈ done ++ [batch ++ [d]], 0 < b.length ∧ b.length ≤ 51 := by
        intro b hbmem
        rcases List.mem_append.mp hbmem with h1 | h1
        · exact hdone b h1
        · simp only [List.mem_singleton] at h1
          subst h1
          simp only [List.length_append, List.length_cons, List.length_nil]
          omega
      have hrec := ih (done ++ [batch ++ [d]]) [] (by simp) hdone'
      refine ⟨hrec.1, hrec.2.1, ?_⟩
      rw [hrec.2.2]
      simp [List.join_append]
    · have h' : ¬batch.length + 1 > 50 := by
        simpa using h
      have hstep : batchStep (done, batch) d = (done, batch ++ [d]) := by
        simp [batchStep, h']
      rw [hstep]
      have hlen : (batch ++ [d]).length ≤ 50 := by
        simp only [List.length_append, List.length_cons, List.length_nil]
        omega
      have hrec := ih done (batch ++ [d]) hlen hdone
      refine ⟨hrec.1, hrec.2.1, ?_⟩
      rw [hrec.2.2]
      simp

/-- Claim C5 (amended): new datasets are buffered and flushed once the
buffer EXCEEDS 50, i.e. at the 51st accumulated dataset, and once more at
the end of the walk; so every written batch is nonempty with at most 51
(not 50) datasets, and every buffered dataset is eventually written. -/
theorem C5_batching (ds : List Nat) :
    (∀ b ∈ allBatches ds, 0 < b.length ∧ b.length ≤ 51) ∧
      (allBatches ds).join = ds := by
  have inv := batch_fold_invariant ds [] [] (by simp) (by simp)
  unfold allBatches
  by_cases h2 : (ds.foldl batchStep ([], [])).2.isEmpty
  · rw [if_pos h2]
    refine ⟨inv.1, ?_⟩
    have hnil : (ds.foldl batchStep ([], [])).2 = [] := by
      simpa [List.isEmpty_iff] using h2
    have := inv.2.2
    rw [hnil] at this
    simpa using this
  · rw [if_neg h2]
    constructor
    · intro b hb
      rcases List.mem_append.mp hb with h1 | h1
      · exact inv.1 b h1
      · simp only [List.mem_singleton] at h1
        subst h1
        have hne : (ds.foldl batchStep ([], [])).2 ≠ [] := by
          simpa [List.isEmpty_iff] using h2
        exact ⟨List.length_pos.mpr hne, le_trans inv.2.1 (by omega)⟩
    · have := inv.2.2
      simpa [List.join_append] using this

/-- Claim C5, witness: a single discovered dataset is written as one final
batch of size one. -/
theorem C5_batching_witness :
    (0 < ([0] : List Nat).length ∧ ([0] : List Nat).length ≤ 51) ∧
      (allBatches [0]).join = [0] :=
  ⟨(C5_batching [0]).1 [0] (by decide), (C5_batching [0]).2⟩

instance : IsTotal FSTree (fun a b => a.name ≤ b.name) :=
  ⟨fun a b => le_total a.name b.name⟩

instance : IsTrans FSTree (fun a b => a.name ≤ b.name) :=
  ⟨fun _ _ _ hab hbc => le_trans hab hbc⟩

theorem gutHidden_name (t : FSTree) : (gutHidden t).name = t.name := by
  unfold gutHidden
  split <;> rfl

/-- Gutting hidden subdirectories does not change which subdirectories pass
the hidden filter, nor the survivors themselves. -/
theorem filter_map_gutHidden (l : List FSTree) :
    (l.map gutHidden).filter (fun s => !s.name.startsWith ".") =
      l.filter (fun s => !s.name.startsWith ".") := by
  induction l with
  | nil => rfl
  | cons t l ih =>
    by_cases h : t.name.startsWith "."
    · have hgut : (gutHidden t).name.startsWith "." = true := by
        rw [gutHidden_name]; exact h
      simp only [List.map_cons, List.filter_cons, hgut, h]
      simpa using ih
    · have hid : gutHidden t = t := by
        unfold gutHidden
        rw [if_neg (by simpa using h)]
      simp only [List.map_cons, List.filter_cons, hid]
      rw [ih]

/-- Gutting hidden subdirectories does not change the `.marvignore`
sentinel check. -/
theorem hasMarvignore_map_gutHidden (files : List String) (l : List FSTree) :
    hasMarvignore files (l.map gutHidden) = hasMarvignore files l := by
  unfold hasMarvignore
  rw [List.any_map]
  have hcomp : ((fun s : FSTree => s.name == ".marvignore") ∘ gutHidden) =
      (fun s : FSTree => s.name == ".marvignore") := by
    funext s
    simp [Function.comp, gutHidden_name]
  rw [hcomp]

/-- Every name handed to the scanner for a directory is not among the
directory's already-known filenames. -/
theorem shownNames_not_known (known : String → List String) (dir : String)
    (files : List String) (x : String) (hx : x ∈ shownNames known dir files) :
    x ∉ known dir := by
  unfold shownNames at hx
  rw [List.mem_insertionSort, List.mem_dedup, List.mem_filter] at hx
  have hc : (known dir).contains x = false := by
    simpa using hx.2
  simpa using hc

/-- Every `(directory, names)` entry emitted anywhere in a walk excludes the
directory's already-known filenames. -/
theorem walk_entries_not_known (known : String → List String) (path : String)
    (t : FSTree) :
    ∀ p names, (p, names) ∈ walkTree known path t → ∀ x ∈ names, x ∉ known p := by
  induction known, path, t using walkTree.induct with
  | case1 known path name files subdirs hmarv =>
    intro p names hmem
    rw [walkTree, if_pos hmarv] at hmem
    simp at hmem
  | case2 known path name files subdirs hmarv ih =>
    intro p names hmem
    rw [walkTree, if_neg hmarv] at hmem
    rcases List.mem_cons.mp hmem with heq | hsub
    · have hp : p = path := congrArg Prod.fst heq
      have hn : names = shownNames known path files := congrArg Prod.snd heq
      subst hp
      subst hn
      intro x hx
      exact shownNames_not_known known p files x hx
    · rcases List.mem_flatMap.mp hsub with ⟨s, _, hmem2⟩
      exact ih s p names hmem2

/-- Claim C7: during the new-file walk, a directory containing a
`.marvignore` sentinel is pruned entirely (neither its own files nor
anything in its subtree reaches the scanner callback); the contents of
hidden subdirectories (name starting with `.`) are never consulted; the
remaining subdirectories are visited in sorted order, and they are exactly
the non-hidden ones; and the filenames handed to the scanner callback for a
directory exclude that directory's already-known filenames. -/
theorem C7_walk (known : String → List String) (path n : String)
    (files : List String) (subdirs : List FSTree) :
    (hasMarvignore files subdirs = true →
      walkTree known path (FSTree.mk n files subdirs) = []) ∧
    (walkTree known path (FSTree.mk n files subdirs) =
      walkTree known path (FSTree.mk n files (subdirs.map gutHidden))) ∧
    (hasMarvignore files subdirs = false →
      walkTree known path (FSTree.mk n files subdirs) =
        (path, shownNames known path files) ::
          (visibleSorted subdirs).flatMap
            (fun s => walkTree known (path ++ "/" ++ s.name) s)) ∧
    ((visibleSorted subdirs).map FSTree.name).Sorted (· ≤ ·) ∧
    (visibleSorted subdirs).Perm
      (subdirs.filter (fun s => !s.name.startsWith ".")) ∧
    (∀ p names, (p, names) ∈ walkTree known path (FSTree.mk n files subdirs) →
      ∀ x ∈ names, x ∉ known p) := by
  have hv : visibleSorted (subdirs.map gutHidden) = visibleSorted subdirs := by
    unfold visibleSorted
    rw [filter_map_gutHidden]
  refine ⟨?_, ?_, ?_, ?_, ?_, ?_⟩
  · intro h
    rw [walkTree, if_pos h]
  · rw [walkTree, walkTree, hasMarvignore_map_gutHidden, hv]
  · intro h
    rw [walkTree, if_neg (by simp [h])]
    simp
  · exact List.Pairwise.map FSTree.name (fun a b hab => hab)
      (List.sorted_insertionSort (fun a b : FSTree => a.name ≤ b.name)
        (subdirs.filter (fun s => !s.name.startsWith ".")))
  · exact List.perm_insertionSort (fun a b : FSTree => a.name ≤ b.name)
      (subdirs.filter (fun s => !s.name.startsWith "."))
  · exact walk_entries_not_known known path (FSTree.mk n files subdirs)

/-- Claim C7, witness: a directory holding a `.marvignore` sentinel yields
no scanner invocation at all, for itself or its (empty) subtree. -/
theorem C7_walk_witness :
    walkTree (fun _ => ["known.txt"]) "root"
      (FSTree.mk "r" [".marvignore", "a.bag"] []) = [] :=
  (C7_walk (fun _ => ["known.txt"]) "root" "r" [".marvignore", "a.bag"] []).1
    (by decide)

/-- An `odStep` leaves the key list unchanged when the key is present and
appends the new key otherwise. -/
theorem odStep_keys (acc : List (String × FilterSpecRec)) (s : FilterSpecRec) :
    (odStep acc s).map Prod.fst =
      if acc.any (fun p => p.1 == s.name)
      then acc.map Prod.fst
      else acc.map Prod.fst ++ [s.name] := by
  unfold odStep
  split
  · rw [List.map_map]
    congr 1
    funext p
    by_cases h : p.1 = s.name <;> simp [h]
  · simp

/-- Folding `odStep` over specs keeps the association-list keys free of
duplicates. -/
theorem orderedDict_fold_nodup (specs : List FilterSpecRec) :
    ∀ acc : List (String × FilterSpecRec),
      (acc.map Prod.fst).Nodup → ((specs.foldl odStep acc).map Prod.fst).Nodup := by
  induction specs with
  | nil =>
    intro acc h
    simpa using h
  | cons s specs ih =>
    intro acc h
    simp only [List.foldl_cons]
    apply ih
    by_cases hany : acc.any (fun p => p.1 == s.name)
    · rw [odStep_keys, if_pos hany]
      exact h
    · rw [odStep_keys, if_neg hany]
      have hnot : s.name ∉ acc.map Prod.fst := by
        intro hmem
        rcases List.mem_map.mp hmem with ⟨p, hp, hfst⟩
        exact hany (List.any_eq_true.mpr ⟨p, hp, by simp [hfst]⟩)
      simp [List.nodup_append, h, hnot]

theorem orderedDict_keys_nodup (specs : List FilterSpecRec) :
    ((orderedDict specs).map Prod.fst).Nodup :=
  orderedDict_fold_nodup specs [] (by simp)

def specSetidA : FilterSpecRec := ⟨"setid", "Set Id", ["startswith"], "string", "f1"⟩

def specSetidB : FilterSpecRec := ⟨"setid", "Set Id 2", ["substring"], "string", "f2"⟩

def specTags : FilterSpecRec := ⟨"tags", "Tags", ["any"], "subset", "f3"⟩

/-- Claim C8, counterexample: a collection whose filter list repeats the
name `setid` loads WITHOUT any error — the duplicate is silently collapsed,
the later spec overriding the earlier — contradicting the claim that a
duplicated filter-spec name fails with a `ConfigError`. -/
theorem C8_counterexample :
    filter_specs [specSetidA, specSetidB, specTags] =
      Except.ok [("setid", specSetidB), ("tags", specTags)] := rfl

/-- Claim C8 (amended): loading a collection's filter specifications fails —
with an `AssertionError` from the `assert` statements, not a `ConfigError` —
exactly when some spec name does not match `^[a-z0-9_]+$` or the mandatory
`setid` or `tags` specs are absent; a duplicated name is NOT rejected (the
later spec silently overrides the earlier), and the names of the resulting
mapping are unique within the collection. -/
theorem C8_filter_specs (specs : List FilterSpecRec) :
    ((filter_specs specs).isOk = true ↔
      ((specs.map (fun s => s.name)).all nameOk = true ∧
       "setid" ∈ specs.map (fun s => s.name) ∧
       "tags" ∈ specs.map (fun s => s.name))) ∧
    (∀ e, filter_specs specs = .error e → e = .assertionError) ∧
    (∀ res, filter_specs specs = .ok res → (res.map Prod.fst).Nodup) := by
  refine ⟨?_, ?_, ?_⟩
  · unfold filter_specs
    dsimp only
    split_ifs with h1 h2 h3 <;> simp_all [Except.isOk, Except.toBool] <;> tauto
  · unfold filter_specs
    dsimp only
    split_ifs <;> intro e he <;> simp_all
  · intro res hres
    unfold filter_specs at hres
    dsimp only at hres
    split_ifs at hres
    have : res = orderedDict specs := by
      injection hres with h
      exact h.symm
    rw [this]
    exact orderedDict_keys_nodup specs

/-- Claim C8, witness: the mapping produced for a loaded filter list has
duplicate-free names. -/
theorem C8_filter_specs_witness :
    (([("setid", specSetidB), ("tags", specTags)] :
        List (String × FilterSpecRec)).map Prod.fst).Nodup :=
  (C8_filter_specs [specSetidA, specSetidB, specTags]).2.2 _ rfl

end Marv
